import Mathlib

/-!
Verification of the rustorm data-access core against its specification.

The development shallowly embeds the three source files of the repository:
`src/entity.rs` (the entity manager), `crates/codegen/src/dao_derive.rs`
(the generated record/Dao conversions) and `src/pg/column_info.rs` (the
Postgres catalog introspection and default-value parsing).  Supporting
types that live in sibling crates of the repository (the `dao` crate's
`Value`, `Dao` and `TableName`, the `error` crate, `util` and `common`
helpers, `column.rs` and `types.rs`) are modelled from the specification;
each such definition carries a doc comment saying so.

Modelling conventions: Rust machine integers are `Int` (range checks that
the claims do not touch are elided and noted), `f64`/`f32` row values are
modelled as rationals and parsed float default values as exact scaled
decimals (`Dec`), dates and timestamps as abstract instants, and a Rust
panic as the `PanicOr.panic` constructor.
-/

set_option linter.unusedVariables false

namespace Rustorm

/-- A single quote character, used to assemble the SQL default-expression
strings that appear throughout the introspection code. -/
def sq : String := String.mk [Char.ofNat 39]

/-- Modelled from the spec: computation that may abort the process.  The
original code uses Rust `assert_eq` / `panic` / `unwrap`; a run that
panics is represented by the `panic` constructor with the (static part of
the) panic message. -/
inductive PanicOr (α : Type) : Type where
  | panic (msg : String)
  | ok (a : α)
deriving DecidableEq, Repr

/-- Modelled from the spec: the tagged value union of the `dao` crate
(section 3, "Value").  Every database-native scalar maps to exactly one
variant; `Nil` is the null marker.  Floats are modelled as rationals,
dates and timestamps as abstract instants, Uuids by their text. -/
inductive Value : Type where
  | Nil
  | Bool (b : Bool)
  | Tinyint (i : Int)
  | Smallint (i : Int)
  | Int (i : Int)
  | Bigint (i : Int)
  | Float (q : Rat)
  | Double (q : Rat)
  | Blob (bytes : List Nat)
  | Char (c : Char)
  | Text (s : String)
  | Uuid (u : String)
  | Date (d : Int)
  | Timestamp (t : Int)
deriving DecidableEq, Repr

/-- Modelled from the spec: the `dao` crate's generic row, an ordered
mapping from column name to `Value` with unique keys (section 3, "Dao"). -/
abbrev Dao : Type := List (String × Value)

/-- Modelled from the spec: `Dao::insert` — one entry per key; inserting
an existing key replaces its value in place, a fresh key is appended,
preserving insertion order. -/
def Dao.insertEntry (d : Dao) (k : String) (v : Value) : Dao :=
  if d.any (fun p => p.1 == k) then
    d.map (fun p => if p.1 == k then (k, v) else p)
  else
    d ++ [(k, v)]

/-- Modelled from the spec: `Dao::get` — look up a column by name. -/
def Dao.get (d : Dao) (k : String) : Option Value :=
  (List.find? (fun p => p.1 == k) d).map (fun p => p.2)

/-- Modelled from the spec: `Dao::remove` — take the value for a key out
of the row, returning the removed value (if any) and the remaining row. -/
def Dao.removeEntry (d : Dao) (k : String) : Option Value × Dao :=
  match List.find? (fun p => p.1 == k) d with
  | some p => (some p.2, List.eraseP (fun q => q.1 == k) d)
  | none => (none, d)

/-- Modelled from the spec: the two cardinality error kinds of the
`error` crate used by `execute_sql_with_one_return` (section 7). -/
inductive DataError : Type where
  | ZeroRecordReturned
  | MoreThan1RecordReturned
deriving DecidableEq, Repr

/-- Modelled from the spec: the `error` crate's `DbError`.  `DataError`
wraps the locally raised cardinality errors; `PlatformError` stands for
any failure surfaced by the database collaborator, carried opaquely. -/
inductive DbError : Type where
  | DataError (e : DataError)
  | PlatformError (m : String)
deriving DecidableEq, Repr

/-- Modelled from the spec: the `dao` crate's qualified table name —
optional schema, name, optional alias (section 3, "TableName"). -/
structure TableName : Type where
  name : String
  schema : Option String
  aliasName : Option String
deriving DecidableEq, Repr

/-- Modelled from the spec: the canonical "complete name" rendering of a
table name used both for querying and for SQL generation. -/
def TableName.complete_name (t : TableName) : String :=
  match t.schema with
  | some s => s ++ "." ++ t.name
  | none => t.name

/-!
## Entity manager (`src/entity.rs`)

The entity manager is embedded relative to the database collaborator,
which is passed as a function `db : String → List Value → Except DbError
(List Dao)` — the spec's collaborator contract `execute_sql_with_return
(sql, params) -> Result<Vec<Dao>, DbError>` (section 6).  A record type's
compile-time metadata (`to_table_name`, `to_column_names`) is passed as
plain values, and `to_dao` / `from_dao` as functions.
-/

/-- The collaborator contract: execute SQL with positional parameters and
return the rows as `Dao`s, or a database error. -/
abbrev Db : Type := String → List Value → Except DbError (List Dao)

/-- The nested placeholder map of `EntityManager::insert`
(src/entity.rs lines 60-75): one group per entity, one placeholder per
declared column, numbered `y * columns_len + x + 1`. -/
def insert_values_groups (nEntities columnsLen : Nat) : List (List Nat) :=
  (List.range nEntities).map (fun y =>
    (List.range columnsLen).map (fun x => y * columnsLen + x + 1))

/-- The SQL text built by `EntityManager::insert` (src/entity.rs lines
49-84): `INSERT INTO <table> (<columns>) VALUES (...), ... RETURNING
<return columns>` with the placeholder groups rendered from
`insert_values_groups`. -/
def insert_sql (table : TableName) (columns : List String)
    (returnColumns : List String) (nEntities : Nat) : String :=
  "INSERT INTO " ++ table.complete_name ++ " " ++
  "(" ++ String.intercalate ", " columns ++ ")\n" ++
  "VALUES " ++
  String.intercalate ", "
    ((insert_values_groups nEntities columns.length).map (fun g =>
      "\n\t(" ++
      String.intercalate ", " (g.map (fun i => "$" ++ toString i)) ++
      ")")) ++
  "RETURNING " ++ String.intercalate ", " returnColumns

/-- The inner loop of `EntityManager::insert` (src/entity.rs lines
89-95): walk the declared columns in order, `remove` each column from
the entity's Dao, pushing the removed value, or `Value::Nil` when the
column is absent.  The Dao is threaded because `remove` takes the entry
out. -/
def extract_row (columns : List String) (dao : Dao) : List Value :=
  match columns with
  | [] => []
  | c :: cs =>
    let r := Dao.removeEntry dao c
    (match r.1 with
     | some v => v
     | none => Value.Nil) :: extract_row cs r.2

/-- The parameter list of `EntityManager::insert` (src/entity.rs lines
86-96): each entity's Dao is computed once and its values extracted in
declared column order, one `extract_row` block per entity. -/
def insert_values (columns : List String) (daos : List Dao) : List Value :=
  match daos with
  | [] => []
  | d :: rest => extract_row columns d ++ insert_values columns rest

/-- `EntityManager::insert` (src/entity.rs lines 41-104), embedded over
the collaborator `db`.  `toDaoT` is T's generated `to_dao`, `fromDaoR`
is R's generated `from_dao`, `tableT`/`columnsT` are T's table and
column metadata and `returnColumnsR` is R's column metadata. -/
def insert {T R : Type} (db : Db) (tableT : TableName)
    (columnsT : List String) (toDaoT : T → Dao)
    (returnColumnsR : List String) (fromDaoR : Dao → R)
    (entities : List T) : Except DbError (List R) :=
  let sql := insert_sql tableT columnsT returnColumnsR entities.length
  let values := insert_values columnsT (entities.map toDaoT)
  match db sql values with
  | Except.error e => Except.error e
  | Except.ok rows => Except.ok (rows.map fromDaoR)

/-- `EntityManager::get_all` (src/entity.rs lines 14-33). -/
def get_all {T : Type} (db : Db) (tableT : TableName)
    (columnsT : List String) (fromDaoT : Dao → T) :
    Except DbError (List T) :=
  let sql := "SELECT " ++ String.intercalate ", " columnsT ++ " FROM " ++
    tableT.complete_name
  match db sql [] with
  | Except.error e => Except.error e
  | Except.ok rows => Except.ok (rows.map fromDaoT)

/-- `EntityManager::execute_sql_with_return` (src/entity.rs lines
106-120): run the SQL through the collaborator and map every returned
row through R's `from_dao`. -/
def execute_sql_with_return {R : Type} (db : Db) (fromDaoR : Dao → R)
    (sql : String) (params : List Value) : Except DbError (List R) :=
  match db sql params with
  | Except.error e => Except.error e
  | Except.ok rows => Except.ok (rows.map fromDaoR)

/-- `EntityManager::execute_sql_with_one_return` (src/entity.rs lines
122-138): delegate to `execute_sql_with_return`, then match on the
number of rows — 0 raises `ZeroRecordReturned`, 1 yields the row
(`swap_remove(0)` of a one-element vector), more raises
`MoreThan1RecordReturned`; collaborator errors pass through. -/
def execute_sql_with_one_return {R : Type} (db : Db) (fromDaoR : Dao → R)
    (sql : String) (params : List Value) : Except DbError R :=
  match execute_sql_with_return db fromDaoR sql params with
  | Except.ok rs =>
    match rs with
    | [] => Except.error (DbError.DataError DataError.ZeroRecordReturned)
    | [r] => Except.ok r
    | _ => Except.error (DbError.DataError DataError.MoreThan1RecordReturned)
  | Except.error e => Except.error e

/-!
## Record mapping contract (`crates/codegen/src/dao_derive.rs`)

The derive macros generate, for a struct with fields `f1 : τ1, …`,

* `to_dao`: `dao.insert(stringify!(fi), &self.fi)` for each field in
  declaration order, and
* `from_dao`: `fi: dao.get(stringify!(fi)).unwrap()` for each field.

A record value is embedded as its ordered field list `List (String ×
FieldVal)` where `FieldVal` ranges over the supported field types (the
scalar types of the test structs in src/entity.rs and their nullable
`Option` variants); the `ToValue` / `FromValue` conversions of the `dao`
crate are modelled from the spec's Value invariant (section 3): every
scalar maps to exactly one `Value` variant, `Option::None` maps to
`Value::Nil`, and reading a field back converts the exact variant. -/

/-- The supported scalar field types of a record (bool, i16, i32, i64,
f32, f64, Vec of bytes, char, String, Uuid, NaiveDate, DateTime). -/
inductive ScalarTy : Type where
  | tBool | tI16 | tI32 | tI64 | tF32 | tF64 | tBytes | tChar
  | tText | tUuid | tDate | tTimestamp
deriving DecidableEq, Repr

/-- A scalar field value of one of the supported field types. -/
inductive Scalar : Type where
  | sBool (b : Bool)
  | sI16 (i : Int)
  | sI32 (i : Int)
  | sI64 (i : Int)
  | sF32 (q : Rat)
  | sF64 (q : Rat)
  | sBytes (bs : List Nat)
  | sChar (c : Char)
  | sText (s : String)
  | sUuid (u : String)
  | sDate (d : Int)
  | sTimestamp (t : Int)
deriving DecidableEq, Repr

/-- The scalar type of a scalar value. -/
def Scalar.ty : Scalar → ScalarTy
  | .sBool _ => .tBool
  | .sI16 _ => .tI16
  | .sI32 _ => .tI32
  | .sI64 _ => .tI64
  | .sF32 _ => .tF32
  | .sF64 _ => .tF64
  | .sBytes _ => .tBytes
  | .sChar _ => .tChar
  | .sText _ => .tText
  | .sUuid _ => .tUuid
  | .sDate _ => .tDate
  | .sTimestamp _ => .tTimestamp

/-- Modelled from the spec: the `ToValue` conversion of the `dao` crate —
each supported scalar maps to exactly one `Value` variant. -/
def scalarToValue : Scalar → Value
  | .sBool b => .Bool b
  | .sI16 i => .Smallint i
  | .sI32 i => .Int i
  | .sI64 i => .Bigint i
  | .sF32 q => .Float q
  | .sF64 q => .Double q
  | .sBytes bs => .Blob bs
  | .sChar c => .Char c
  | .sText s => .Text s
  | .sUuid u => .Uuid u
  | .sDate d => .Date d
  | .sTimestamp t => .Timestamp t

/-- Modelled from the spec: the `FromValue` conversion of the `dao`
crate at a given target scalar type — total on the variant the type maps
to, failing explicitly (`none`, a panic at the `unwrap` in the generated
`from_dao`) on any other variant. -/
def scalarFromValue : ScalarTy → Value → Option Scalar
  | .tBool, .Bool b => some (.sBool b)
  | .tI16, .Smallint i => some (.sI16 i)
  | .tI32, .Int i => some (.sI32 i)
  | .tI64, .Bigint i => some (.sI64 i)
  | .tF32, .Float q => some (.sF32 q)
  | .tF64, .Double q => some (.sF64 q)
  | .tBytes, .Blob bs => some (.sBytes bs)
  | .tChar, .Char c => some (.sChar c)
  | .tText, .Text s => some (.sText s)
  | .tUuid, .Uuid u => some (.sUuid u)
  | .tDate, .Date d => some (.sDate d)
  | .tTimestamp, .Timestamp t => some (.sTimestamp t)
  | _, _ => none

/-- A field type: a supported scalar type, required or nullable
(`Option`). -/
inductive FieldTy : Type where
  | req (t : ScalarTy)
  | opt (t : ScalarTy)
deriving DecidableEq, Repr

/-- A field value: a scalar, or an `Option` scalar (`optSome` / a typed
`optNone`). -/
inductive FieldVal : Type where
  | req (s : Scalar)
  | optSome (s : Scalar)
  | optNone (t : ScalarTy)
deriving DecidableEq, Repr

/-- The field type of a field value. -/
def FieldVal.ty : FieldVal → FieldTy
  | .req s => .req s.ty
  | .optSome s => .opt s.ty
  | .optNone t => .opt t

/-- Modelled from the spec: `ToValue` on a field — a scalar converts to
its variant, `None` converts to the null marker `Value::Nil`. -/
def FieldVal.toValue : FieldVal → Value
  | .req s => scalarToValue s
  | .optSome s => scalarToValue s
  | .optNone _ => .Nil

/-- Modelled from the spec: `FromValue` on a field type — a nullable
field reads `Value::Nil` as `None`, otherwise both kinds convert the
scalar variant. -/
def fieldFromValue : FieldTy → Value → Option FieldVal
  | .req t, v => (scalarFromValue t v).map .req
  | .opt t, .Nil => some (.optNone t)
  | .opt t, v => (scalarFromValue t v).map .optSome

/-- A record value: the ordered list of (field name, field value), as
declared on the struct. -/
abbrev Record : Type := List (String × FieldVal)

/-- The generated `to_dao` (crates/codegen/src/dao_derive.rs lines
43-81): start from `Dao::new()` and insert every field in declaration
order under its verbatim field name. -/
def to_dao (r : Record) : Dao :=
  r.foldl (fun d p => Dao.insertEntry d p.1 p.2.toValue) []

/-- The generated `from_dao` (crates/codegen/src/dao_derive.rs lines
3-41): build the struct by looking each declared field up by name and
converting it; a missing field or wrong variant is the generated
`unwrap` panic, modelled as `none`. -/
def from_dao (fields : List (String × FieldTy)) (d : Dao) :
    Option Record :=
  match fields with
  | [] => some []
  | (n, t) :: rest =>
    match (Dao.get d n).bind (fieldFromValue t) with
    | none => none
    | some v =>
      match from_dao rest d with
      | none => none
      | some vs => some ((n, v) :: vs)

/-- The declared field types of a record value. -/
def recordFieldTys (r : Record) : List (String × FieldTy) :=
  r.map (fun p => (p.1, p.2.ty))

/-!
## String operations used by the introspection code

`src/pg/column_info.rs` manipulates the catalog strings with the Rust
`str` methods `to_lowercase`, `starts_with`, `trim_start_matches`,
`trim_end_matches`, `trim_matches`, `split`, `contains` and
`str::parse`.  They are embedded here over `List Char` (a `String`'s
`data`), matching Rust's documented behavior: the `trim_*_matches`
methods remove *repeated* occurrences of the pattern, and `split` on a
separator yields the (possibly empty) pieces between occurrences, so the
empty string splits into one empty piece. -/

/-- Fuel-driven worker for `trim_start_matches`: as long as the
(non-empty) pattern is a prefix, drop it and continue. -/
def stripStartAux : Nat → List Char → List Char → List Char
  | 0, _, s => s
  | fuel + 1, pat, s =>
    if pat ≠ [] ∧ pat.isPrefixOf s then
      stripStartAux fuel pat (s.drop pat.length)
    else s

/-- Rust `str::trim_start_matches` with a string pattern: repeatedly
remove the pattern from the front. -/
def stripStart (pat s : List Char) : List Char :=
  stripStartAux s.length pat s

/-- Rust `str::trim_end_matches` with a string pattern: repeatedly
remove the pattern from the back. -/
def stripEnd (pat s : List Char) : List Char :=
  (stripStart pat.reverse s.reverse).reverse

/-- Rust `str::trim_start_matches` with a char pattern: drop every
leading occurrence of the char. -/
def trimCharStart (c : Char) (s : List Char) : List Char :=
  s.dropWhile (fun x => x == c)

/-- Rust `str::trim_end_matches` with a char pattern: drop every
trailing occurrence of the char. -/
def trimCharEnd (c : Char) (s : List Char) : List Char :=
  (s.reverse.dropWhile (fun x => x == c)).reverse

/-- Rust `str::trim_matches` with a char pattern: drop the char from
both ends. -/
def trimCharBoth (c : Char) (s : List Char) : List Char :=
  trimCharEnd c (trimCharStart c s)

/-- Rust `str::split` on a char separator: the pieces between
occurrences of the separator, keeping empty pieces (so the empty string
yields one empty piece). -/
def splitOnChar (c : Char) : List Char → List (List Char)
  | [] => [[]]
  | x :: xs =>
    if x == c then [] :: splitOnChar c xs
    else
      match splitOnChar c xs with
      | [] => [[x]]
      | h :: t => (x :: h) :: t

/-- Whether `pat` occurs as a contiguous subsequence of `s` (Rust
`str::contains` with a string pattern). -/
def containsSub (pat : List Char) : List Char → Bool
  | [] => pat.isPrefixOf []
  | x :: xs => pat.isPrefixOf (x :: xs) || containsSub pat xs

/-- Everything before the first occurrence of `pat` (the first piece of
Rust `str::split` with a string pattern); the whole string when `pat`
does not occur. -/
def takeUntilSub (pat : List Char) : List Char → List Char
  | [] => []
  | x :: xs =>
    if pat.isPrefixOf (x :: xs) then []
    else x :: takeUntilSub pat xs

/-- Rust `char::to_lowercase` restricted to the simple (ASCII-style)
case mapping `Char.toLower`; `String::to_lowercase` maps it over the
characters. -/
def rustLower (s : String) : String :=
  String.mk (s.data.map Char.toLower)

/-- Rust `str::starts_with` with a string pattern. -/
def strStartsWith (pat s : String) : Bool :=
  pat.data.isPrefixOf s.data

/-- The double-colon separator of a Postgres cast annotation. -/
def castSep : List Char := [Char.ofNat 58, Char.ofNat 58]

/-- `remove_value_cast` (src/pg/column_info.rs lines 117-124): if the
default contains a `::` cast, keep only the part before the first
occurrence (`value.split("::")[0]`), else the value unchanged. -/
def remove_value_cast (value : String) : String :=
  if containsSub castSep value.data then
    String.mk (takeUntilSub castSep value.data)
  else value

/-- The numeric value of a non-empty run of ASCII digits; `none` if any
character is not a digit or the run is empty. -/
def parseDigits : List Char → Option Nat
  | [] => none
  | ds =>
    if ds.all (fun c => c.isDigit) then
      some (ds.foldl (fun n c => n * 10 + (c.toNat - 48)) 0)
    else none

/-- Rust `str::parse::<i64>`: an optional sign followed by digits.  The
i64 range check is elided (no claim exercises overflow). -/
def parseI64 (s : List Char) : Option Int :=
  match s with
  | '+' :: rest => (parseDigits rest).map (fun n => (n : Int))
  | '-' :: rest => (parseDigits rest).map (fun n => -(n : Int))
  | _ => (parseDigits s).map (fun n => (n : Int))

/-- An exact scaled-decimal float value: `man / 10^scale`.  The spec's
float model for parsed f64 default values — catalog float defaults are
decimal numerals, which this represents exactly. -/
structure Dec : Type where
  man : Int
  scale : Nat
deriving DecidableEq, Repr

/-- Magnitude of a decimal numeral: digits with at most one decimal
point, at least one digit overall, valued as an exact scaled decimal. -/
def parseDecimalMag (s : List Char) : Option Dec :=
  match splitOnChar '.' s with
  | [w] => (parseDigits w).map (fun n => Dec.mk (n : Int) 0)
  | [w, f] =>
    if w = [] ∧ f = [] then none
    else if (w.all (fun c => c.isDigit)) ∧ (f.all (fun c => c.isDigit)) then
      some (Dec.mk
        ((w.foldl (fun n c => n * 10 + (c.toNat - 48)) 0 * 10 ^ f.length +
          f.foldl (fun n c => n * 10 + (c.toNat - 48)) 0 : Nat) : Int)
        f.length)
    else none
  | _ => none

/-- Rust `str::parse::<f64>` restricted to plain decimal numerals with
an optional sign, valued exactly (the spec's float model; exponent
forms, `inf` and `NaN` do not occur in catalog defaults the claims
exercise). -/
def parseF64 (s : List Char) : Option Dec :=
  match s with
  | '+' :: rest => parseDecimalMag rest
  | '-' :: rest => (parseDecimalMag rest).map (fun q => Dec.mk (-q.man) q.scale)
  | _ => parseDecimalMag s

/-- Rust `str::parse::<bool>`: exactly `true` or `false`. -/
def parseBool (s : String) : Option Bool :=
  if s = "true" then some true
  else if s = "false" then some false
  else none

/-- Modelled from the spec: `Uuid::parse_str` of the external uuid crate
— accepts the hyphenated 8-4-4-4-12 hex form, keeping the text as the
parsed value. -/
def parseUuid (s : String) : Option String :=
  match splitOnChar '-' s.data with
  | [a, b, c, d, e] =>
    if a.length = 8 ∧ b.length = 4 ∧ c.length = 4 ∧ d.length = 4 ∧
        e.length = 12 ∧ (a ++ b ++ c ++ d ++ e).all (fun ch =>
          ch.isDigit || ('a' ≤ ch && ch ≤ 'f') || ('A' ≤ ch && ch ≤ 'F'))
    then some s
    else none
  | _ => none

/-- Modelled from the spec: `util::maybe_trim_parenthesis` — strip one
pair of surrounding parentheses when both are present (section 4.4,
float family: "strip ... surrounding parentheses"). -/
def maybe_trim_parenthesis (s : String) : String :=
  match s.data with
  | '(' :: rest =>
    if rest ≠ [] ∧ rest.getLast? = some ')' then
      String.mk (rest.dropLast)
    else s
  | _ => s

/-- Modelled from the spec: `util::eval_f64` — evaluate a default text
as a floating expression (section 4.4); modelled as evaluation of a
signed decimal numeral, quotes stripped the way the numeric branch does
for integers. -/
def eval_f64 (s : String) : Option Dec :=
  parseF64 (trimCharBoth (Char.ofNat 39) s.data)

/-!
## Column model (`column.rs`, `types.rs` — modelled from the spec)
-/

/-- Modelled from the spec: the portable column type set `SqlType`
(section 3), with the variants the introspection code constructs or
matches on. -/
inductive SqlType : Type where
  | Bool | Tinyint | Smallint | Int | Bigint
  | Real | Float | Double | Numeric
  | Tinyblob | Mediumblob | Blob | Longblob | Varbinary
  | Char | Varchar | Tinytext | Mediumtext | Text
  | Json | TsVector | Uuid | Date
  | Timestamp | TimestampTz | Time | TimeTz
  | IpAddress | Point | Interval
  | Enum (name : String) (choices : List String)
  | Array (elem : SqlType)
deriving DecidableEq, Repr

/-- Modelled from the spec: a column's `Capacity` — a fixed length limit
or a (precision, scale) pair (section 3). -/
inductive Capacity : Type where
  | Limit (n : Nat)
  | Range (precision scale : Nat)
deriving DecidableEq, Repr

/-- Modelled from the spec: the default-value `Literal` domain
(section 3). -/
inductive Literal : Type where
  | Null
  | Bool (b : Bool)
  | Integer (i : Int)
  | Double (q : Dec)
  | String (s : String)
  | Uuid (u : String)
  | UuidGenerateV4
  | CurrentTimestamp
  | CurrentDate
  | ArrayInt (xs : List Int)
  | ArrayFloat (xs : List Dec)
  | ArrayString (xs : List String)
deriving DecidableEq, Repr

/-- Modelled from the spec: a column constraint — `NotNull`, a default
literal, or auto-increment with the optional sequence name (section 3). -/
inductive ColumnConstraint : Type where
  | NotNull
  | DefaultValue (l : Literal)
  | AutoIncrement (seq : Option String)
deriving DecidableEq, Repr

/-- Modelled from the spec: a column's specification — resolved type,
optional capacity and constraint list (section 3, "ColumnDef"). -/
structure ColumnSpecification : Type where
  sql_type : SqlType
  capacity : Option Capacity
  constraints : List ColumnConstraint
deriving DecidableEq, Repr

/-- Modelled from the spec: per-column planner statistics — average
width and distinct-value estimate (section 3). -/
structure ColumnStat : Type where
  avg_width : Int
  n_distinct : Rat
deriving DecidableEq, Repr

/-- Modelled from the spec: a qualified column name (section 3,
"ColumnName"); `ColumnName::from(name)` fills only the name. -/
structure ColumnName : Type where
  name : String
  table : Option String
  aliasName : Option String
deriving DecidableEq, Repr

/-- Modelled from the spec: the assembled per-column snapshot
(section 3, "ColumnDef"). -/
structure ColumnDef : Type where
  table : TableName
  name : ColumnName
  comment : Option String
  specification : ColumnSpecification
  stat : Option ColumnStat
deriving DecidableEq, Repr

/-!
## Schema introspection (`src/pg/column_info.rs`)
-/

/-- The decoded row of the per-column constraint query
(src/pg/column_info.rs lines 133-142, struct `ColumnConstraintSimple`). -/
structure ColumnConstraintSimple : Type where
  not_null : Bool
  data_type : String
  default : Option String
  is_enum : Bool
  is_array_enum : Bool
  enum_choices : List String
  array_enum_choices : List String
deriving DecidableEq, Repr

/-- The decoded row of the column-list query (src/pg/column_info.rs
lines 28-32, struct `ColumnSimple`). -/
structure ColumnSimple : Type where
  name : String
  comment : Option String
deriving DecidableEq, Repr

/-- Modelled from the spec: `common::extract_datatype_with_capacity` —
split a native type string into the base name and the parenthesized
capacity suffix: `varchar(45)` gives (varchar, Limit 45), `numeric(4,2)`
gives (numeric, Range 4 2), a name without a recognized suffix is
unconstrained (section 4.3 step 4). -/
def extract_datatype_with_capacity (dataType : String) :
    String × Option Capacity :=
  let cs := dataType.data
  if containsSub ['('] cs ∧ cs.getLast? = some ')' then
    let base := takeUntilSub ['('] cs
    let inner := (cs.drop (base.length + 1)).dropLast
    match (splitOnChar ',' inner).map parseDigits with
    | [some n] => (String.mk base, some (Capacity.Limit n))
    | [some p, some s] => (String.mk base, some (Capacity.Range p s))
    | _ => (dataType, none)
  else (dataType, none)

/-- `ColumnConstraintSimple::get_sql_type_capacity`
(src/pg/column_info.rs lines 347-407): an enum flag wins, then an
array-of-enum flag with choices, otherwise the native type name (with
its capacity suffix split off) is dispatched through the fixed table;
an unrecognized name is a panic. -/
def get_sql_type_capacity (s : ColumnConstraintSimple) :
    PanicOr (SqlType × Option Capacity) :=
  let r := extract_datatype_with_capacity s.data_type
  let dtype := r.1
  let capacity := r.2
  if s.is_enum then
    PanicOr.ok (SqlType.Enum s.data_type s.enum_choices, none)
  else if s.is_array_enum ∧ s.array_enum_choices ≠ [] then
    PanicOr.ok (SqlType.Array (SqlType.Enum s.data_type s.array_enum_choices),
      none)
  else
    let st : Option SqlType :=
      if dtype = "boolean" then some SqlType.Bool
      else if dtype = "tinyint" then some SqlType.Tinyint
      else if dtype = "smallint" ∨ dtype = "year" then some SqlType.Smallint
      else if dtype = "int" ∨ dtype = "integer" then some SqlType.Int
      else if dtype = "int[]" ∨ dtype = "integer[]" then
        some (SqlType.Array SqlType.Int)
      else if dtype = "bigint" then some SqlType.Bigint
      else if dtype = "real" then some SqlType.Real
      else if dtype = "float" then some SqlType.Float
      else if dtype = "double" ∨ dtype = "double precision" then
        some SqlType.Double
      else if dtype = "numeric" then some SqlType.Numeric
      else if dtype = "tinyblob" then some SqlType.Tinyblob
      else if dtype = "mediumblob" then some SqlType.Mediumblob
      else if dtype = "blob" then some SqlType.Blob
      else if dtype = "bytea" then some SqlType.Blob
      else if dtype = "longblob" then some SqlType.Longblob
      else if dtype = "varbinary" then some SqlType.Varbinary
      else if dtype = "char" ∨ dtype = "bpchar" then some SqlType.Char
      else if dtype = "varchar" ∨ dtype = "character varying" ∨
          dtype = "character" ∨ dtype = "name" then some SqlType.Varchar
      else if dtype = "varchar[]" ∨ dtype = "character varying[]" ∨
          dtype = "name[]" then some (SqlType.Array SqlType.Text)
      else if dtype = "tinytext" then some SqlType.Tinytext
      else if dtype = "mediumtext" then some SqlType.Mediumtext
      else if dtype = "text" then some SqlType.Text
      else if dtype = "json" ∨ dtype = "jsonb" then some SqlType.Json
      else if dtype = "tsvector" then some SqlType.TsVector
      else if dtype = "text[]" then some (SqlType.Array SqlType.Text)
      else if dtype = "uuid" then some SqlType.Uuid
      else if dtype = "date" then some SqlType.Date
      else if dtype = "timestamp" ∨ dtype = "timestamp without time zone" then
        some SqlType.Timestamp
      else if dtype = "timestamp with time zone" then some SqlType.TimestampTz
      else if dtype = "time with time zone" then some SqlType.TimeTz
      else if dtype = "time without time zone" then some SqlType.Time
      else if dtype = "inet" then some SqlType.IpAddress
      else if dtype = "real[]" then some (SqlType.Array SqlType.Float)
      else if dtype = "oid" then some SqlType.Int
      else if dtype = "unknown" then some SqlType.Text
      else if dtype = String.mk ['"', 'c', 'h', 'a', 'r', '"'] then
        some SqlType.Char
      else if dtype = "point" then some SqlType.Point
      else if dtype = "interval" then some SqlType.Interval
      else none
    match st with
    | some t => PanicOr.ok (t, capacity)
    | none => PanicOr.panic "not yet handled"

/-- The single-quote character. -/
def qc : Char := Char.ofNat 39

/-- The default text `timezone('utc'::text, now())` recognized by the
timestamp branch (src/pg/column_info.rs line 222). -/
def tzUtcNow : String := "timezone(" ++ sq ++ "utc" ++ sq ++ "::text, now())"

/-- The default text `('now'::text)::date` recognized by the date
branch (src/pg/column_info.rs line 233). -/
def nowTextDate : String := "(" ++ sq ++ "now" ++ sq ++ "::text)::date"

/-- The prefix `nextval('` trimmed from a sequence default
(src/pg/column_info.rs line 173). -/
def nextvalPre : String := "nextval(" ++ sq

/-- The suffix `'::regclass)` trimmed from a sequence default
(src/pg/column_info.rs line 174). -/
def regclassSuf : String := sq ++ "::regclass)"

/-- The trim chain every array branch applies to its default text
(src/pg/column_info.rs lines 257-261, 279-283 and 311-315; the source
repeats it inline in each arm): remove the cast annotation, trim the
surrounding single quotes, then the opening and closing braces. -/
def trim_array_values (default : String) : List Char :=
  trimCharEnd '}' (trimCharStart '{' (trimCharBoth qc
    (remove_value_cast default).data))

/-- The element walk of the integer-array branch (src/pg/column_info.rs
lines 265-270): parse every piece as i64, panicking at the first piece
that does not parse. -/
def int_elems : List (List Char) → PanicOr (List Int)
  | [] => PanicOr.ok []
  | p :: rest =>
    match parseI64 p with
    | none => PanicOr.panic "unable to parse integer value"
    | some i =>
      match int_elems rest with
      | PanicOr.panic m => PanicOr.panic m
      | PanicOr.ok xs => PanicOr.ok (i :: xs)

/-- The element walk of the float-array branch (src/pg/column_info.rs
lines 284-302): parse every piece as f64, panicking at the first piece
that does not parse. -/
def float_elems : List (List Char) → PanicOr (List Dec)
  | [] => PanicOr.ok []
  | p :: rest =>
    match parseF64 p with
    | none => PanicOr.panic "unable to parse float value"
    | some q =>
      match float_elems rest with
      | PanicOr.panic m => PanicOr.panic m
      | PanicOr.ok qs => PanicOr.ok (q :: qs)

/-- The Default-Value Parser: the type-dispatched `match sql_type`
of `to_column_constraints` (src/pg/column_info.rs lines 177-339),
taking the resolved type and the raw default text to a literal or a
panic.  Branch order follows the source match. -/
def literal_for (sqlType : SqlType) (default : String) : PanicOr Literal :=
  match sqlType with
  | SqlType.Bool =>
    match parseBool default with
    | some v => PanicOr.ok (Literal.Bool v)
    | none => PanicOr.panic "error parsing to bool"
  | SqlType.Int | SqlType.Smallint | SqlType.Tinyint | SqlType.Bigint =>
    match parseI64 default.data with
    | some v => PanicOr.ok (Literal.Integer v)
    | none => PanicOr.panic "error parsing to integer"
  | SqlType.Float | SqlType.Double | SqlType.Real | SqlType.Numeric =>
    let value := remove_value_cast default
    let default_value := maybe_trim_parenthesis value
    if rustLower default_value = "null" then PanicOr.ok Literal.Null
    else
      let trimmed := trimCharBoth qc default_value.data
      match parseI64 trimmed with
      | some intValue => PanicOr.ok (Literal.Integer intValue)
      | none =>
        match eval_f64 default_value with
        | some val => PanicOr.ok (Literal.Double val)
        | none => PanicOr.panic "unable to evaluate default value expression"
  | SqlType.Uuid =>
    if default = "uuid_generate_v4()" then PanicOr.ok Literal.UuidGenerateV4
    else
      match parseUuid default with
      | some v => PanicOr.ok (Literal.Uuid v)
      | none => PanicOr.panic "error parsing to uuid"
  | SqlType.Timestamp | SqlType.TimestampTz =>
    if default = "now()" ∨ default = tzUtcNow then
      PanicOr.ok Literal.CurrentTimestamp
    else PanicOr.ok Literal.Null
  | SqlType.Date =>
    if default = "today()" ∨ default = "now()" ∨ default = nowTextDate then
      PanicOr.ok Literal.CurrentDate
    else PanicOr.panic "date other than today is not covered"
  | SqlType.Varchar | SqlType.Char | SqlType.Tinytext | SqlType.Mediumtext
  | SqlType.Text => PanicOr.ok (Literal.String (remove_value_cast default))
  | SqlType.Enum _ _ => PanicOr.ok (Literal.String (remove_value_cast default))
  | SqlType.Array at_ =>
    match at_ with
    | SqlType.Int | SqlType.Tinyint | SqlType.Smallint | SqlType.Bigint =>
      let trimmed_values := trim_array_values default
      if trimmed_values = [] then PanicOr.ok (Literal.ArrayInt [])
      else
        match int_elems (splitOnChar ',' trimmed_values) with
        | PanicOr.panic m => PanicOr.panic m
        | PanicOr.ok xs => PanicOr.ok (Literal.ArrayInt xs)
    | SqlType.Real | SqlType.Float | SqlType.Double | SqlType.Numeric =>
      let trimmed_values := trim_array_values default
      if trimmed_values = [] then PanicOr.ok (Literal.ArrayInt [])
      else
        match float_elems (splitOnChar ',' trimmed_values) with
        | PanicOr.panic m => PanicOr.panic m
        | PanicOr.ok qs => PanicOr.ok (Literal.ArrayFloat qs)
    | SqlType.Text | SqlType.Varchar | SqlType.Tinytext
    | SqlType.Mediumtext =>
      let trimmed_values := trim_array_values default
      PanicOr.ok (Literal.ArrayString
        ((splitOnChar ',' trimmed_values).map String.mk))
    | _ => PanicOr.panic "ArrayType not convered"
  | _ => PanicOr.panic "not convered"

/-- The default-expression dispatch of `to_column_constraints`
(src/pg/column_info.rs lines 168-341): lowercase the default; the exact
text `null` is a null default; a text starting with `nextval` is an
auto-increment whose sequence name is the lowercased text with the
`nextval('` prefix and `'::regclass)` suffix trimmed; anything else is
handed to the Default-Value Parser with the resolved type. -/
def default_constraint (sqlType : SqlType) (default : String) :
    PanicOr ColumnConstraint :=
  let ic_default := rustLower default
  if ic_default = "null" then
    PanicOr.ok (ColumnConstraint.DefaultValue Literal.Null)
  else if strStartsWith "nextval" ic_default then
    let trimmed_seq := stripStart nextvalPre.data ic_default.data
    let trimmed_seq2 := stripEnd regclassSuf.data trimmed_seq
    PanicOr.ok (ColumnConstraint.AutoIncrement (some (String.mk trimmed_seq2)))
  else
    match literal_for sqlType default with
    | PanicOr.panic m => PanicOr.panic m
    | PanicOr.ok l => PanicOr.ok (ColumnConstraint.DefaultValue l)

/-- `ColumnConstraintSimple::to_column_constraints`
(src/pg/column_info.rs lines 158-345): resolve the type, start with
`NotNull` when flagged, then append the constraint resolved from the
default expression when one is present. -/
def to_column_constraints (s : ColumnConstraintSimple) :
    PanicOr (List ColumnConstraint) :=
  match get_sql_type_capacity s with
  | PanicOr.panic m => PanicOr.panic m
  | PanicOr.ok st =>
    let base := if s.not_null then [ColumnConstraint.NotNull] else []
    match s.default with
    | none => PanicOr.ok base
    | some d =>
      match default_constraint st.1 d with
      | PanicOr.panic m => PanicOr.panic m
      | PanicOr.ok c => PanicOr.ok (base ++ [c])

/-- `ColumnConstraintSimple::to_column_specification`
(src/pg/column_info.rs lines 145-156): pair the resolved type and
capacity with the resolved constraints (the source resolves the type
twice, once here and once inside `to_column_constraints`). -/
def to_column_specification (s : ColumnConstraintSimple) :
    PanicOr ColumnSpecification :=
  match get_sql_type_capacity s with
  | PanicOr.panic m => PanicOr.panic m
  | PanicOr.ok st =>
    match to_column_constraints s with
    | PanicOr.panic m => PanicOr.panic m
    | PanicOr.ok cs =>
      PanicOr.ok { sql_type := st.1, capacity := st.2, constraints := cs }

/-!
### Catalog queries

Each catalog function issues one fixed SQL statement with text
parameters; the collaborator is abstracted per statement as a function
from the parameter list to the decoded rows (the `Dao` decode of the
fixed row shape is driver plumbing).  The parameter lists are factored
out as definitions because the schema-defaulting claim is about them.
-/

/-- The parameters of the column-list query (src/pg/column_info.rs lines
70-79): table name, schema (defaulted to `public` when the table name
has none), and the complete name for the privilege check. -/
def get_columns_params (table_name : TableName) : List String :=
  let schema :=
    match table_name.schema with
    | some s => s
    | none => "public"
  [table_name.name, schema, table_name.complete_name]

/-- The parameters of the per-column constraint query
(src/pg/column_info.rs lines 478-488): column name, table name, schema
(defaulted to `public`). -/
def get_column_specification_params (table_name : TableName)
    (column_name : String) : List String :=
  let schema :=
    match table_name.schema with
    | some s => s
    | none => "public"
  [column_name, table_name.name, schema]

/-- The parameters of the per-column statistics query
(src/pg/column_info.rs lines 516-534): column name, table name, schema
(defaulted to `public`). -/
def get_column_stat_params (table_name : TableName)
    (column_name : String) : List String :=
  let schema :=
    match table_name.schema with
    | some s => s
    | none => "public"
  [column_name, table_name.name, schema]

/-- The message of the `assert_eq!(column_constraints.len(), 1)` at
src/pg/column_info.rs line 506. -/
def one_row_assert_msg : String :=
  "assertion failed: column_constraints.len() == 1"

/-- `get_column_specification` (src/pg/column_info.rs lines 127-509):
run the constraint query; a collaborator error propagates; the result
must hold exactly one row (`assert_eq!(column_constraints.len(), 1)`,
a panic otherwise), which is converted to the column specification. -/
def get_column_specification
    (db : List String → Except DbError (List ColumnConstraintSimple))
    (table_name : TableName) (column_name : String) :
    PanicOr (Except DbError ColumnSpecification) :=
  match db (get_column_specification_params table_name column_name) with
  | Except.error e => PanicOr.ok (Except.error e)
  | Except.ok rows =>
    match rows with
    | [row] =>
      match to_column_specification row with
      | PanicOr.panic m => PanicOr.panic m
      | PanicOr.ok spec => PanicOr.ok (Except.ok spec)
    | _ => PanicOr.panic one_row_assert_msg

/-- `get_column_stat` (src/pg/column_info.rs lines 511-550): run the
statistics query; no rows is the legitimate `none` state, otherwise the
first row is taken. -/
def get_column_stat
    (db : List String → Except DbError (List ColumnStat))
    (table_name : TableName) (column_name : String) :
    Except DbError (Option ColumnStat) :=
  match db (get_column_stat_params table_name column_name) with
  | Except.error e => Except.error e
  | Except.ok stats =>
    match stats with
    | [] => Except.ok none
    | s :: _ => Except.ok (some s)

/-- The per-column body of `get_columns` (src/pg/column_info.rs lines
93-108): resolve the specification (a panic inside it aborts), then the
statistics (an error is an early return), then an error from the
specification is an early return, else the `ColumnDef` is assembled
via `ColumnSimple::to_column` (lines 34-49). -/
def get_columns_loop
    (dbSpec : List String → Except DbError (List ColumnConstraintSimple))
    (dbStat : List String → Except DbError (List ColumnStat))
    (table_name : TableName) :
    List ColumnSimple → PanicOr (Except DbError (List ColumnDef))
  | [] => PanicOr.ok (Except.ok [])
  | c :: rest =>
    match get_column_specification dbSpec table_name c.name with
    | PanicOr.panic m => PanicOr.panic m
    | PanicOr.ok specRes =>
      match get_column_stat dbStat table_name c.name with
      | Except.error e => PanicOr.ok (Except.error e)
      | Except.ok stat =>
        match specRes with
        | Except.error e => PanicOr.ok (Except.error e)
        | Except.ok spec =>
          match get_columns_loop dbSpec dbStat table_name rest with
          | PanicOr.panic m => PanicOr.panic m
          | PanicOr.ok (Except.error e) => PanicOr.ok (Except.error e)
          | PanicOr.ok (Except.ok cols) =>
            PanicOr.ok (Except.ok
              ({ table := table_name,
                 name := { name := c.name, table := none, aliasName := none },
                 comment := c.comment,
                 specification := spec,
                 stat := stat } :: cols))

/-- `get_columns` (src/pg/column_info.rs lines 23-113): list the
columns of the table, then resolve each one's specification and
statistics. -/
def get_columns
    (dbCols : List String → Except DbError (List ColumnSimple))
    (dbSpec : List String → Except DbError (List ColumnConstraintSimple))
    (dbStat : List String → Except DbError (List ColumnStat))
    (table_name : TableName) :
    PanicOr (Except DbError (List ColumnDef)) :=
  match dbCols (get_columns_params table_name) with
  | Except.error e => PanicOr.ok (Except.error e)
  | Except.ok simples => get_columns_loop dbSpec dbStat table_name simples

/-- A fixture record mirroring the `Sample` test structs of
src/entity.rs (lines 178-257): one field of every supported scalar type,
plus a present (`Some`) and an absent (`None`) nullable field for each
scalar type. -/
def sample_record : Record :=
  [("vbool", FieldVal.req (Scalar.sBool true)),
   ("vsmallint", FieldVal.req (Scalar.sI16 1000)),
   ("vint", FieldVal.req (Scalar.sI32 32000)),
   ("vbigint", FieldVal.req (Scalar.sI64 123000)),
   ("vfloat", FieldVal.req (Scalar.sF32 1)),
   ("vdouble", FieldVal.req (Scalar.sF64 2)),
   ("vblob", FieldVal.req (Scalar.sBytes [0])),
   ("vchar", FieldVal.req (Scalar.sChar 'c')),
   ("vtext", FieldVal.req (Scalar.sText "Hello")),
   ("vuuid", FieldVal.req (Scalar.sUuid "d25af116-fb30-4731-9cf9-2251c235e8fa")),
   ("vdate", FieldVal.req (Scalar.sDate 19000)),
   ("vtimestamp", FieldVal.req (Scalar.sTimestamp 1700000000)),
   ("sbool", FieldVal.optSome (Scalar.sBool false)),
   ("ssmallint", FieldVal.optSome (Scalar.sI16 (-7))),
   ("sint", FieldVal.optSome (Scalar.sI32 (-1))),
   ("sbigint", FieldVal.optSome (Scalar.sI64 0)),
   ("sfloat", FieldVal.optSome (Scalar.sF32 ((3 : Rat)/2))),
   ("sdouble", FieldVal.optSome (Scalar.sF64 ((499 : Rat)/100))),
   ("sblob", FieldVal.optSome (Scalar.sBytes [1, 2, 3])),
   ("schar", FieldVal.optSome (Scalar.sChar 'G')),
   ("stext", FieldVal.optSome (Scalar.sText "")),
   ("suuid", FieldVal.optSome (Scalar.sUuid "")),
   ("sdate", FieldVal.optSome (Scalar.sDate (-1))),
   ("stimestamp", FieldVal.optSome (Scalar.sTimestamp 42)),
   ("nbool", FieldVal.optNone ScalarTy.tBool),
   ("nsmallint", FieldVal.optNone ScalarTy.tI16),
   ("nint", FieldVal.optNone ScalarTy.tI32),
   ("nbigint", FieldVal.optNone ScalarTy.tI64),
   ("nfloat", FieldVal.optNone ScalarTy.tF32),
   ("ndouble", FieldVal.optNone ScalarTy.tF64),
   ("nblob", FieldVal.optNone ScalarTy.tBytes),
   ("nchar", FieldVal.optNone ScalarTy.tChar),
   ("ntext", FieldVal.optNone ScalarTy.tText),
   ("nuuid", FieldVal.optNone ScalarTy.tUuid),
   ("ndate", FieldVal.optNone ScalarTy.tDate),
   ("ntimestamp", FieldVal.optNone ScalarTy.tTimestamp)]

/-!
## Theorems
-/

/-- C3: `execute_sql_with_one_return` returns the single mapped row when
the underlying execution produces exactly one row, the
`ZeroRecordReturned` error kind when it produces no rows, the distinct
`MoreThan1RecordReturned` error kind when it produces two or more rows,
and propagates collaborator execution errors unchanged. -/
theorem one_return_cardinality {R : Type} (db : Db) (fromDaoR : Dao → R)
    (sql : String) (params : List Value) :
    (∀ d, db sql params = Except.ok [d] →
      execute_sql_with_one_return db fromDaoR sql params =
        Except.ok (fromDaoR d)) ∧
    (db sql params = Except.ok [] →
      execute_sql_with_one_return db fromDaoR sql params =
        Except.error (DbError.DataError DataError.ZeroRecordReturned)) ∧
    (∀ d1 d2 rest, db sql params = Except.ok (d1 :: d2 :: rest) →
      execute_sql_with_one_return db fromDaoR sql params =
        Except.error (DbError.DataError DataError.MoreThan1RecordReturned)) ∧
    (∀ e, db sql params = Except.error e →
      execute_sql_with_one_return db fromDaoR sql params =
        Except.error e) := by
  refine ⟨?_, ?_, ?_, ?_⟩ <;> intros <;>
    simp_all [execute_sql_with_one_return, execute_sql_with_return]

/-- Witness for C3: literal fixtures with 1, 0, 2 rows and an execution
error, mapped through the identity row constructor. -/
theorem one_return_cardinality_witness :
    execute_sql_with_one_return (fun _ _ => Except.ok [([] : Dao)]) id
      "SELECT 1" [] = Except.ok [] ∧
    execute_sql_with_one_return (fun _ _ => Except.ok ([] : List Dao)) id
      "SELECT 1" [] =
      Except.error (DbError.DataError DataError.ZeroRecordReturned) ∧
    execute_sql_with_one_return
      (fun _ _ => Except.ok [([] : Dao), [("a", Value.Nil)]]) id
      "SELECT 1" [] =
      Except.error (DbError.DataError DataError.MoreThan1RecordReturned) ∧
    execute_sql_with_one_return
      (fun _ _ => Except.error (DbError.PlatformError "connection reset")) id
      "SELECT 1" [] =
      Except.error (DbError.PlatformError "connection reset") :=
  ⟨(one_return_cardinality _ id "SELECT 1" []).1 [] rfl,
   (one_return_cardinality _ id "SELECT 1" []).2.1 rfl,
   (one_return_cardinality _ id "SELECT 1" []).2.2.1 [] [("a", Value.Nil)]
     [] rfl,
   (one_return_cardinality _ id "SELECT 1" []).2.2.2
     (DbError.PlatformError "connection reset") rfl⟩

/-- One placeholder group covers the half-open range starting after the
previous rows' placeholders. -/
theorem insert_group_eq_range (y c : Nat) :
    (List.range c).map (fun x => y * c + x + 1) = List.range' (y * c + 1) c := by
  rw [List.range'_eq_map_range]
  exact List.map_congr_left (fun x _ => by omega)

/-- The flattened placeholder groups are exactly `1, 2, …, n*c`. -/
theorem insert_groups_flatten (n c : Nat) :
    (insert_values_groups n c).flatten = List.range' 1 (n * c) := by
  induction n with
  | zero => simp [insert_values_groups]
  | succ m ih =>
    unfold insert_values_groups at ih ⊢
    rw [List.range_succ, List.map_append, List.flatten_append, ih,
      List.map_singleton, insert_group_eq_range]
    simpa [Nat.succ_mul, Nat.add_comm] using
      List.range'_append 1 (m * c) c 1

/-- C1: for a batch of `n` entities over `c` declared columns, the
`VALUES` clause built by `EntityManager::insert` has exactly `n`
placeholder groups of width `c`, the placeholder of row `y`, column `x`
is numbered `y*c + x + 1`, and flattened the placeholders form the
contiguous range `1..=n*c` with no gaps or reuse. -/
theorem insert_placeholder_groups (n c : Nat) :
    (insert_values_groups n c).length = n ∧
    (∀ g ∈ insert_values_groups n c, g.length = c) ∧
    (∀ y x, y < n → x < c →
      ((insert_values_groups n c).getD y []).getD x 0 = y * c + x + 1) ∧
    (insert_values_groups n c).flatten = List.range' 1 (n * c) := by
  refine ⟨by simp [insert_values_groups], ?_, ?_, insert_groups_flatten n c⟩
  · intro g hg
    simp only [insert_values_groups, List.mem_map] at hg
    obtain ⟨y, _, rfl⟩ := hg
    simp
  · intro y x hy hx
    simp [insert_values_groups, List.getD_eq_getElem?_getD,
      List.getElem?_map, List.getElem?_range hy, List.getElem?_range hx]

/-- Witness for C1 at a concrete batch shape (2 entities, 3 columns):
the middle placeholder of the second row is `$6` and the flattened
range is `1..=6`. -/
theorem insert_placeholder_groups_witness :
    ((insert_values_groups 2 3).getD 1 []).getD 2 0 = 6 ∧
    (insert_values_groups 2 3).flatten = List.range' 1 6 :=
  ⟨(insert_placeholder_groups 2 3).2.2.1 1 2 (by decide) (by decide),
   (insert_placeholder_groups 2 3).2.2.2⟩

/-- Each extracted row has one value per declared column. -/
theorem extract_row_length (columns : List String) (dao : Dao) :
    (extract_row columns dao).length = columns.length := by
  induction columns generalizing dao with
  | nil => rfl
  | cons c cs ih => simp [extract_row, ih]

/-- The removed value of `Dao::remove` is the looked-up value. -/
theorem removeEntry_fst (d : Dao) (k : String) :
    (Dao.removeEntry d k).1 = Dao.get d k := by
  unfold Dao.removeEntry Dao.get
  cases List.find? (fun p => p.1 == k) d <;> rfl

/-- Removing one key cannot make another key appear. -/
theorem dao_get_removeEntry_none (d : Dao) (c k : String)
    (h : Dao.get d k = none) : Dao.get (Dao.removeEntry d c).2 k = none := by
  unfold Dao.removeEntry
  cases List.find? (fun p => p.1 == c) d with
  | none => exact h
  | some p =>
    unfold Dao.get at h ⊢
    simp only [Option.map_eq_none', List.find?_eq_none] at h ⊢
    exact fun x hx => h x ((List.eraseP_sublist d).subset hx)

/-- Removing a different key does not change a lookup. -/
theorem dao_get_removeEntry_ne (d : Dao) (c k : String) (hk : k ≠ c) :
    Dao.get (Dao.removeEntry d c).2 k = Dao.get d k := by
  have main : Dao.get (List.eraseP (fun q => q.1 == c) d) k = Dao.get d k := by
    induction d with
    | nil => rfl
    | cons q rest ih =>
      rw [List.eraseP_cons]
      cases hqc : (q.1 == c) with
      | true =>
        have hq1 : q.1 = c := by simpa using hqc
        have hqk : (q.1 == k) = false := by
          rw [hq1]
          exact beq_eq_false_iff_ne.mpr (fun h => hk h.symm)
        simp only [cond_true]
        show Dao.get rest k = Dao.get (q :: rest) k
        simp only [Dao.get, List.find?_cons, hqk]
      | false =>
        simp only [cond_false]
        show Dao.get (q :: List.eraseP (fun q => q.1 == c) rest) k =
          Dao.get (q :: rest) k
        simp only [Dao.get, List.find?_cons]
        cases hqk : (q.1 == k) with
        | true => rfl
        | false => simpa [Dao.get] using ih
  unfold Dao.removeEntry
  cases List.find? (fun p => p.1 == c) d with
  | none => rfl
  | some p => exact main

/-- A column absent from the entity's Dao yields `Value::Nil` at its
position of the extracted row. -/
theorem extract_row_absent (columns : List String) (dao : Dao) (x : Nat)
    (hx : x < columns.length) (h : Dao.get dao columns[x] = none) :
    (extract_row columns dao)[x]? = some Value.Nil := by
  induction columns generalizing dao x with
  | nil => exact absurd hx (by simp)
  | cons c cs ih =>
    cases x with
    | zero =>
      simp only [List.getElem_cons_zero] at h
      simp [extract_row, removeEntry_fst, h]
    | succ x' =>
      simp only [List.getElem_cons_succ] at h
      have := ih (Dao.removeEntry dao c).2 x' (by simpa using hx)
        (dao_get_removeEntry_none dao c _ h)
      simpa [extract_row] using this

/-- With distinct declared column names, a column present in the
entity's Dao yields its value at its position of the extracted row. -/
theorem extract_row_present (columns : List String) (dao : Dao)
    (hnd : columns.Nodup) (x : Nat) (hx : x < columns.length) (v : Value)
    (h : Dao.get dao columns[x] = some v) :
    (extract_row columns dao)[x]? = some v := by
  induction columns generalizing dao x with
  | nil => exact absurd hx (by simp)
  | cons c cs ih =>
    cases x with
    | zero =>
      simp only [List.getElem_cons_zero] at h
      simp [extract_row, removeEntry_fst, h]
    | succ x' =>
      simp only [List.getElem_cons_succ] at h
      have hx' : x' < cs.length := by simpa using hx
      have hne : cs[x'] ≠ c := by
        intro he
        exact (List.nodup_cons.mp hnd).1 (he ▸ List.getElem_mem hx')
      have hget : Dao.get (Dao.removeEntry dao c).2 cs[x'] = some v := by
        rw [dao_get_removeEntry_ne dao c _ hne]; exact h
      have := ih (Dao.removeEntry dao c).2 (List.nodup_cons.mp hnd).2 x' hx'
        hget
      simpa [extract_row] using this

/-- Indexing the flattened parameter list at `y*c + x` lands in row `y`
at offset `x`. -/
theorem insert_values_getElem (columns : List String) (daos : List Dao)
    (y x : Nat) (hy : y < daos.length) (hx : x < columns.length) :
    (insert_values columns daos)[y * columns.length + x]? =
      (extract_row columns daos[y])[x]? := by
  induction daos generalizing y with
  | nil => exact absurd hy (by simp)
  | cons d rest ih =>
    cases y with
    | zero =>
      have hlt : 0 * columns.length + x < (extract_row columns d).length := by
        rw [extract_row_length]; omega
      simp only [insert_values, List.getElem?_append, if_pos hlt]
      simp only [Nat.zero_mul, Nat.zero_add, List.getElem_cons_zero]
    | succ y' =>
      have hy' : y' < rest.length := by simpa using hy
      have hge : (extract_row columns d).length ≤
          (y' + 1) * columns.length + x := by
        rw [extract_row_length, Nat.succ_mul]; omega
      rw [insert_values, List.getElem?_append_right hge, extract_row_length]
      have harith : (y' + 1) * columns.length + x - columns.length =
          y' * columns.length + x := by rw [Nat.succ_mul]; omega
      rw [harith]
      simpa using ih y' hy'

/-- C4: the flattened parameter list of `EntityManager::insert` always
has length `N*C`; a column absent from an entity's Dao contributes
`Value::Nil` at its aligned slot `y*C + x` instead of being omitted;
and (with the record's distinct column names) a present column
contributes its Dao value at that slot, values being extracted in
declared column order. -/
theorem insert_values_alignment (columns : List String) (daos : List Dao) :
    (insert_values columns daos).length = daos.length * columns.length ∧
    (∀ y x (hy : y < daos.length) (hx : x < columns.length),
      Dao.get daos[y] columns[x] = none →
        (insert_values columns daos)[y * columns.length + x]? =
          some Value.Nil) ∧
    (columns.Nodup →
      ∀ y x (hy : y < daos.length) (hx : x < columns.length) v,
        Dao.get daos[y] columns[x] = some v →
          (insert_values columns daos)[y * columns.length + x]? = some v) := by
  refine ⟨?_, ?_, ?_⟩
  · induction daos with
    | nil => simp [insert_values]
    | cons d rest ih =>
      simp [insert_values, extract_row_length, ih, Nat.succ_mul,
        Nat.add_comm]
  · intro y x hy hx h
    rw [insert_values_getElem columns daos y x hy hx]
    exact extract_row_absent columns daos[y] x hx h
  · intro hnd y x hy hx v h
    rw [insert_values_getElem columns daos y x hy hx]
    exact extract_row_present columns daos[y] hnd x hx v h

/-- Witness for C4: two columns, one entity whose Dao lacks the second
column — the parameter list has length 2, slot 0 carries the present
value and slot 1 carries `Value::Nil`. -/
theorem insert_values_alignment_witness :
    (insert_values ["first_name", "last_name"]
      [[("first_name", Value.Text "TOM")]]).length = 2 ∧
    (insert_values ["first_name", "last_name"]
      [[("first_name", Value.Text "TOM")]])[1]? = some Value.Nil ∧
    (insert_values ["first_name", "last_name"]
      [[("first_name", Value.Text "TOM")]])[0]? =
      some (Value.Text "TOM") :=
  ⟨(insert_values_alignment ["first_name", "last_name"]
      [[("first_name", Value.Text "TOM")]]).1,
   (insert_values_alignment ["first_name", "last_name"]
      [[("first_name", Value.Text "TOM")]]).2.1 0 1 (by decide) (by decide)
      (by decide),
   (insert_values_alignment ["first_name", "last_name"]
      [[("first_name", Value.Text "TOM")]]).2.2 (by decide) 0 0 (by decide)
      (by decide) (Value.Text "TOM") (by decide)⟩

/-- Converting a field to a `Value` and back at the field's own type is
the identity, for every supported scalar and both nullable states. -/
theorem field_roundtrip (v : FieldVal) :
    fieldFromValue v.ty v.toValue = some v := by
  cases v with
  | req s => cases s <;> rfl
  | optSome s => cases s <;> rfl
  | optNone t => rfl

/-- Folding `Dao::insert` over fields with fresh, mutually distinct
names appends one entry per field in order. -/
theorem to_dao_go (r : Record) :
    ∀ acc : Dao, (∀ p ∈ r, ∀ q ∈ acc, q.1 ≠ p.1) →
    (r.map Prod.fst).Nodup →
    r.foldl (fun d p => Dao.insertEntry d p.1 p.2.toValue) acc =
      acc ++ r.map (fun p => (p.1, p.2.toValue)) := by
  induction r with
  | nil => intro acc _ _; simp
  | cons p rest ih =>
    intro acc hfresh hnd
    have hnotin : acc.any (fun q => q.1 == p.1) = false := by
      rw [List.any_eq_false]
      intro q hq hbe
      exact (hfresh p (by simp) q hq) (by simpa using hbe)
    have hstep : Dao.insertEntry acc p.1 p.2.toValue =
        acc ++ [(p.1, p.2.toValue)] := by
      unfold Dao.insertEntry
      rw [hnotin]
      simp
    simp only [List.foldl_cons, hstep]
    rw [ih (acc ++ [(p.1, p.2.toValue)]) ?_ ?_]
    · simp
    · intro p' hp' q hq
      rcases List.mem_append.mp hq with hq | hq
      · exact hfresh p' (by simp [hp']) q hq
      · have hq1 : q.1 = p.1 := by
          simp only [List.mem_singleton] at hq
          rw [hq]
        rw [hq1]
        have : p.1 ∉ rest.map Prod.fst := (List.nodup_cons.mp
          (by simpa using hnd)).1
        intro he
        exact this (he ▸ List.mem_map_of_mem Prod.fst hp')
    · exact (List.nodup_cons.mp (by simpa using hnd)).2

/-- With distinct field names, the generated `to_dao` produces exactly
one entry per field, in declaration order, under the verbatim name. -/
theorem to_dao_eq (r : Record) (hnd : (r.map Prod.fst).Nodup) :
    to_dao r = r.map (fun p => (p.1, p.2.toValue)) := by
  unfold to_dao
  simpa using to_dao_go r [] (by simp) hnd

/-- Looking a field of a record with distinct names up in the
field-entry list returns that field's converted value. -/
theorem dao_get_mapped (r : Record) (p : String × FieldVal)
    (hnd : (r.map Prod.fst).Nodup) (hp : p ∈ r) :
    Dao.get (r.map (fun p => (p.1, p.2.toValue))) p.1 =
      some p.2.toValue := by
  induction r with
  | nil => cases hp
  | cons q rest ih =>
    rw [List.map_cons]
    rcases List.mem_cons.mp hp with rfl | hp'
    · unfold Dao.get
      rw [List.find?_cons_of_pos _ (by simp)]
      rfl
    · have hq : q.1 ≠ p.1 := by
        intro he
        exact (List.nodup_cons.mp (by simpa using hnd)).1
          (he ▸ List.mem_map_of_mem Prod.fst hp')
      unfold Dao.get
      rw [List.find?_cons_of_neg _ (by simpa using hq)]
      exact ih (List.nodup_cons.mp (by simpa using hnd)).2 hp'

/-- With distinct field names, looking a field up in the produced Dao
returns that field's converted value. -/
theorem dao_get_to_dao (r : Record) (hnd : (r.map Prod.fst).Nodup)
    (p : String × FieldVal) (hp : p ∈ r) :
    Dao.get (to_dao r) p.1 = some p.2.toValue := by
  rw [to_dao_eq r hnd]
  exact dao_get_mapped r p hnd hp

/-- `from_dao` reconstructs a record from any Dao in which every
declared field looks up and converts to its value. -/
theorem from_dao_complete (r : Record) (d : Dao)
    (h : ∀ p ∈ r, (Dao.get d p.1).bind (fieldFromValue p.2.ty) =
      some p.2) :
    from_dao (recordFieldTys r) d = some r := by
  induction r with
  | nil => rfl
  | cons p rest ih =>
    have hhead := h p (by simp)
    have htail : ∀ q ∈ rest,
        (Dao.get d q.1).bind (fieldFromValue q.2.ty) = some q.2 :=
      fun q hq => h q (by simp [hq])
    simp only [recordFieldTys, List.map_cons] at ih ⊢
    unfold from_dao
    rw [hhead, ih htail]

/-- C2: to_dao followed by from_dao is the identity on every record
(with its distinct field names), covering every supported field type
and the nullable variants of each scalar type. -/
theorem record_roundtrip (r : Record) (hnd : (r.map Prod.fst).Nodup) :
    from_dao (recordFieldTys r) (to_dao r) = some r := by
  apply from_dao_complete
  intro p hp
  rw [dao_get_to_dao r hnd p hp]
  simpa using field_roundtrip p.2

/-- Witness for C2: the round trip at the fixture record, which holds a
field of every supported scalar type and both nullable states of each. -/
theorem record_roundtrip_witness :
    from_dao (recordFieldTys sample_record) (to_dao sample_record) =
      some sample_record :=
  record_roundtrip sample_record (by decide)

/-- C9: when the requested table name carries no schema component, all
three catalog statements (column listing, per-column constraint
resolution, per-column statistics) receive the string `public` in their
schema parameter slot, so an unqualified table is introspected against
the public schema. -/
theorem unqualified_schema_public (t : TableName) (c : String)
    (h : t.schema = none) :
    get_columns_params t = [t.name, "public", t.name] ∧
    get_column_specification_params t c = [c, t.name, "public"] ∧
    get_column_stat_params t c = [c, t.name, "public"] := by
  refine ⟨?_, ?_, ?_⟩ <;>
    simp [get_columns_params, get_column_specification_params,
      get_column_stat_params, TableName.complete_name, h]

/-- Witness for C9 at the schema-less table `actor`, column
`actor_id`. -/
theorem unqualified_schema_public_witness :
    get_columns_params ⟨"actor", none, none⟩ =
      ["actor", "public", "actor"] ∧
    get_column_specification_params ⟨"actor", none, none⟩ "actor_id" =
      ["actor_id", "actor", "public"] ∧
    get_column_stat_params ⟨"actor", none, none⟩ "actor_id" =
      ["actor_id", "actor", "public"] :=
  unqualified_schema_public ⟨"actor", none, none⟩ "actor_id" rfl

/-- C5: when the per-column constraint query returns any number of rows
other than one, `get_column_specification` aborts with the
assertion-level panic, not a recoverable error result. -/
theorem one_row_assertion
    (db : List String → Except DbError (List ColumnConstraintSimple))
    (t : TableName) (c : String) (rows : List ColumnConstraintSimple)
    (hdb : db (get_column_specification_params t c) = Except.ok rows)
    (hn : rows.length ≠ 1) :
    get_column_specification db t c = PanicOr.panic one_row_assert_msg := by
  unfold get_column_specification
  rw [hdb]
  match rows, hn with
  | [], _ => rfl
  | [r], hn => exact absurd rfl hn
  | r1 :: r2 :: rest, _ => rfl

/-- Witness for C5: a collaborator returning zero rows for the
constraint query makes introspection panic. -/
theorem one_row_assertion_witness :
    get_column_specification (fun _ => Except.ok [])
      ⟨"actor", none, none⟩ "actor_id" =
      PanicOr.panic one_row_assert_msg :=
  one_row_assertion (fun _ => Except.ok []) ⟨"actor", none, none⟩
    "actor_id" [] rfl (by decide)

/-- C7: for a column resolved to Timestamp or TimestampTz, the
Default-Value Parser yields `CurrentTimestamp` exactly for the
recognized now-expressions `now()` and `timezone('utc'::text, now())`,
and the conservative `Null` fallback for every other default text,
never a panic. -/
theorem timestamp_default_now (st : SqlType)
    (hst : st = SqlType.Timestamp ∨ st = SqlType.TimestampTz) (d : String) :
    (literal_for st d = PanicOr.ok Literal.CurrentTimestamp ↔
      (d = "now()" ∨ d = tzUtcNow)) ∧
    (¬(d = "now()" ∨ d = tzUtcNow) →
      literal_for st d = PanicOr.ok Literal.Null) := by
  rcases hst with rfl | rfl <;>
  · constructor
    · by_cases h : d = "now()" ∨ d = tzUtcNow <;> simp [literal_for, h]
    · intro h
      simp [literal_for, h]

/-- Witness for C7: both recognized now-expressions and one
unrecognized default on a timestamp column. -/
theorem timestamp_default_now_witness :
    literal_for SqlType.Timestamp "now()" =
      PanicOr.ok Literal.CurrentTimestamp ∧
    literal_for SqlType.TimestampTz tzUtcNow =
      PanicOr.ok Literal.CurrentTimestamp ∧
    literal_for SqlType.Timestamp "CURRENT_DATE" =
      PanicOr.ok Literal.Null :=
  ⟨(timestamp_default_now _ (Or.inl rfl) "now()").1.mpr (Or.inl rfl),
   (timestamp_default_now _ (Or.inr rfl) tzUtcNow).1.mpr (Or.inr rfl),
   (timestamp_default_now _ (Or.inl rfl) "CURRENT_DATE").2 (by decide)⟩

/-- C10: on a default whose trimmed remainder is empty, the text-array
branch — which has no empty-string special case — splits the empty
remainder into one empty piece and yields `ArrayString [""]`, while the
integer-array branch yields the empty `ArrayInt []` for the same
default. -/
theorem text_array_empty_brace (d : String)
    (h : trim_array_values d = []) :
    literal_for (SqlType.Array SqlType.Text) d =
      PanicOr.ok (Literal.ArrayString [""]) ∧
    literal_for (SqlType.Array SqlType.Int) d =
      PanicOr.ok (Literal.ArrayInt []) := by
  constructor
  · simp [literal_for, h, splitOnChar]
  · simp [literal_for, h]

/-- Witness for C10: the empty-brace default `'{}'::text[]`. -/
theorem text_array_empty_brace_witness :
    literal_for (SqlType.Array SqlType.Text)
      (sq ++ "{}" ++ sq ++ "::text[]") =
      PanicOr.ok (Literal.ArrayString [""]) ∧
    literal_for (SqlType.Array SqlType.Int)
      (sq ++ "{}" ++ sq ++ "::text[]") =
      PanicOr.ok (Literal.ArrayInt []) :=
  text_array_empty_brace (sq ++ "{}" ++ sq ++ "::text[]") (by decide)

/-- A list is a `isPrefixOf`-prefix of itself followed by anything. -/
theorem isPrefixOf_self_append (pat rest : List Char) :
    pat.isPrefixOf (pat ++ rest) = true :=
  List.isPrefixOf_iff_prefix.mpr (List.prefix_append pat rest)

/-- `trim_start_matches` stops as soon as the pattern is not a prefix,
whatever fuel remains. -/
theorem stripStartAux_of_neg (f : Nat) (pat s : List Char)
    (h : ¬ (pat ≠ [] ∧ pat.isPrefixOf s = true)) :
    stripStartAux f pat s = s := by
  cases f with
  | zero => rfl
  | succ n => simp only [stripStartAux, if_neg h]

/-- `trim_start_matches` removes a single leading copy of the pattern
when the remainder does not start with the pattern again. -/
theorem stripStart_block (pat rest : List Char) (hp : pat ≠ [])
    (h : ¬ pat.isPrefixOf rest = true) :
    stripStart pat (pat ++ rest) = rest := by
  have hneg : ¬ (pat ≠ [] ∧ pat.isPrefixOf rest = true) := fun hc => h hc.2
  unfold stripStart
  rw [List.length_append]
  cases hpl : pat.length with
  | zero => exact absurd (List.length_eq_zero.mp hpl) hp
  | succ n =>
    have harith : n + 1 + rest.length = (n + rest.length) + 1 := by omega
    rw [harith]
    simp only [stripStartAux,
      if_pos (And.intro hp (isPrefixOf_self_append pat rest))]
    rw [List.drop_left]
    exact stripStartAux_of_neg _ pat rest hneg

/-- `trim_end_matches` removes a single trailing copy of the pattern
when the remainder does not end with the pattern again. -/
theorem stripEnd_block (pat rest : List Char) (hp : pat ≠ [])
    (h : ¬ pat.isSuffixOf rest = true) :
    stripEnd pat (rest ++ pat) = rest := by
  unfold stripEnd
  rw [List.reverse_append]
  rw [stripStart_block pat.reverse rest.reverse (by simpa using hp) ?_]
  · exact List.reverse_reverse rest
  · intro hc
    apply h
    simpa [List.isSuffixOf] using hc

/-- C6 counterexample: the sequence name is not extracted verbatim —
the whole default is lowercased first, so
`nextval('MySeq'::regclass)` resolves to `AutoIncrement(Some("myseq"))`,
not to the verbatim `"MySeq"`. -/
theorem nextval_not_verbatim :
    default_constraint SqlType.Int (nextvalPre ++ "MySeq" ++ regclassSuf) =
      PanicOr.ok (ColumnConstraint.AutoIncrement (some "myseq")) ∧
    ("myseq" : String) ≠ "MySeq" := by
  decide

/-- C6 (amended): for a default of the exact envelope
`nextval('<seq>'::regclass)`, constraint resolution yields
`AutoIncrement(Some(<seq>))` where the name is taken from the
*lowercased* default text (so it is verbatim exactly when the declared
sequence name is already lowercase), independently of the resolved SQL
type — the Default-Value Parser is not consulted.  The side conditions
say the lowercased name does not itself continue the envelope. -/
theorem nextval_autoincrement (st : SqlType) (seqName : String)
    (hlow : rustLower seqName = seqName)
    (h1 : ¬ nextvalPre.data.isPrefixOf
      (seqName.data ++ regclassSuf.data) = true)
    (h2 : ¬ regclassSuf.data.isSuffixOf seqName.data = true) :
    default_constraint st (nextvalPre ++ seqName ++ regclassSuf) =
      PanicOr.ok (ColumnConstraint.AutoIncrement (some seqName)) := by
  have hmap : seqName.data.map Char.toLower = seqName.data :=
    congrArg String.data hlow
  have hN : nextvalPre.data.map Char.toLower = nextvalPre.data := by decide
  have hR : regclassSuf.data.map Char.toLower = regclassSuf.data := by decide
  have hic : (rustLower (nextvalPre ++ seqName ++ regclassSuf)).data =
      nextvalPre.data ++ (seqName.data ++ regclassSuf.data) := by
    show (nextvalPre ++ seqName ++ regclassSuf).data.map Char.toLower = _
    simp [String.data_append, List.map_append, hN, hR, hmap,
      List.append_assoc]
  have hnonull :
      rustLower (nextvalPre ++ seqName ++ regclassSuf) ≠ "null" := by
    intro he
    have hd := congrArg String.data he
    rw [hic] at hd
    have hlen := congrArg List.length hd
    have hNl : nextvalPre.data.length = 9 := by decide
    have hRl : regclassSuf.data.length = 12 := by decide
    have h4 : ("null" : String).data.length = 4 := by decide
    simp only [List.length_append, hNl, hRl, h4] at hlen
    omega
  have hsw : strStartsWith "nextval"
      (rustLower (nextvalPre ++ seqName ++ regclassSuf)) = true := by
    unfold strStartsWith
    rw [hic]
    have hsplit : nextvalPre.data = "nextval".data ++ ['(', qc] := by decide
    rw [hsplit, List.append_assoc]
    exact isPrefixOf_self_append _ _
  have hpne : nextvalPre.data ≠ [] := by decide
  have hrne : regclassSuf.data ≠ [] := by decide
  simp only [default_constraint]
  rw [if_neg hnonull, if_pos hsw, hic,
    stripStart_block nextvalPre.data _ hpne h1,
    stripEnd_block regclassSuf.data seqName.data hrne h2]

/-- Witness for C6 (amended): the sakila sequence
`nextval('actor_actor_id_seq'::regclass)` resolves to
`AutoIncrement(Some("actor_actor_id_seq"))`. -/
theorem nextval_autoincrement_witness :
    default_constraint SqlType.Int
      (nextvalPre ++ "actor_actor_id_seq" ++ regclassSuf) =
      PanicOr.ok
        (ColumnConstraint.AutoIncrement (some "actor_actor_id_seq")) :=
  nextval_autoincrement SqlType.Int "actor_actor_id_seq" (by decide)
    (by decide) (by decide)

/-- When every piece parses as a float, the float-array element walk
collects exactly the parsed values. -/
theorem float_elems_of_map (ps : List (List Char)) (qs : List Dec)
    (h : ps.map parseF64 = qs.map some) :
    float_elems ps = PanicOr.ok qs := by
  induction ps generalizing qs with
  | nil =>
    cases qs with
    | nil => rfl
    | cons q qt => simp at h
  | cons p pt ih =>
    cases qs with
    | nil => simp at h
    | cons q qt =>
      simp only [List.map_cons, List.cons.injEq] at h
      simp [float_elems, h.1, ih qt h.2]

/-- When some piece fails to parse as a float, the float-array element
walk panics. -/
theorem float_elems_panic (ps : List (List Char))
    (h : none ∈ ps.map parseF64) :
    float_elems ps = PanicOr.panic "unable to parse float value" := by
  induction ps with
  | nil => simp at h
  | cons p pt ih =>
    simp only [List.map_cons, List.mem_cons] at h
    cases hp : parseF64 p with
    | none => simp [float_elems, hp]
    | some q =>
      have hmem : none ∈ pt.map parseF64 := by
        rcases h with h | h
        · rw [hp] at h
          cases h
        · exact h
      simp [float_elems, hp, ih hmem]

/-- C8 counterexample: the empty-brace float-array default yields the
empty *integer*-array literal, which is a different literal from the
empty float array the claim names. -/
theorem float_array_empty_not_float :
    literal_for (SqlType.Array SqlType.Real)
      (sq ++ "{}" ++ sq ++ "::real[]") =
      PanicOr.ok (Literal.ArrayInt []) ∧
    (PanicOr.ok (Literal.ArrayInt []) : PanicOr Literal) ≠
      PanicOr.ok (Literal.ArrayFloat []) := by
  decide

/-- C8 (amended): for a column resolved to an array of the floating
family, the default follows the integer-array shape with float
elements — strip the cast annotation, the quotes and the braces, split
on comma, parse each element as a float into `ArrayFloat`, any element
parse failure is fatal — except that empty braces yield the empty
*integer*-array literal `ArrayInt []` (not an empty float array). -/
theorem float_array_default_rule (st : SqlType)
    (hst : st = SqlType.Real ∨ st = SqlType.Float ∨ st = SqlType.Double ∨
      st = SqlType.Numeric) (d : String) :
    (trim_array_values d = [] →
      literal_for (SqlType.Array st) d =
        PanicOr.ok (Literal.ArrayInt [])) ∧
    (∀ qs : List Dec, trim_array_values d ≠ [] →
      (splitOnChar ',' (trim_array_values d)).map parseF64 =
        qs.map some →
      literal_for (SqlType.Array st) d =
        PanicOr.ok (Literal.ArrayFloat qs)) ∧
    (trim_array_values d ≠ [] →
      none ∈ (splitOnChar ',' (trim_array_values d)).map parseF64 →
      literal_for (SqlType.Array st) d =
        PanicOr.panic "unable to parse float value") := by
  rcases hst with rfl | rfl | rfl | rfl <;>
  · refine ⟨?_, ?_, ?_⟩
    · intro h
      simp [literal_for, h]
    · intro qs hne hmap
      simp [literal_for, hne, float_elems_of_map _ qs hmap]
    · intro hne hmem
      simp [literal_for, hne, float_elems_panic _ hmem]

/-- Witness for C8 (amended): `'{1.5,2}'::real[]` parses into the float
array `[1.5, 2]`. -/
theorem float_array_default_rule_witness :
    literal_for (SqlType.Array SqlType.Real)
      (sq ++ "{1.5,2}" ++ sq ++ "::real[]") =
      PanicOr.ok (Literal.ArrayFloat [Dec.mk 15 1, Dec.mk 2 0]) :=
  (float_array_default_rule SqlType.Real (Or.inl rfl)
    (sq ++ "{1.5,2}" ++ sq ++ "::real[]")).2.1 [Dec.mk 15 1, Dec.mk 2 0]
    (by decide) (by decide)

end Rustorm
